import Mathlib

/-!
Shallow embedding of the Autoware behavior-velocity stop-line scene module
(`autoware_behavior_velocity_stop_line_module/src/scene.cpp`).

Distances, times and planar coordinates are modelled as exact rationals (ℚ).
The `Trajectory` abstraction, `planning_utils::extendLine` and the initial
value of the `stopped_time_` member live outside the provided source file;
those definitions are modelled from the spec and say so in their doc
comments.  Everything else is translated directly from `scene.cpp`.
-/

namespace BehaviorVelocityPlanner

/-- Modelled from the spec: a path point of the external trajectory library,
carrying its arc-length coordinate `s`, planar position `(x, y)` and
longitudinal velocity `v`.  The library parametrizes points by arc length;
the coordinate is carried explicitly. -/
structure TrajPoint where
  s : ℚ
  x : ℚ
  y : ℚ
  v : ℚ
deriving DecidableEq

/-- Strict monotonicity of the arc-length coordinates along a point list. -/
def sIncreasing : List TrajPoint → Bool
  | [] => true
  | [_] => true
  | a :: b :: rest => decide (a.s < b.s) && sIncreasing (b :: rest)

/-- Modelled from the spec: the external `Trajectory` wraps an ordered point
sequence whose arc lengths are strictly increasing. -/
structure Trajectory where
  points : List TrajPoint
deriving DecidableEq

/-- Modelled from the spec: `Trajectory::Builder::build` fails (returns
nothing) for fewer than 2 points or non-strictly-increasing arc length. -/
def Trajectory.build (points : List TrajPoint) : Option Trajectory :=
  if 2 ≤ points.length ∧ sIncreasing points = true then some ⟨points⟩ else none

/-- Modelled from the spec: total arc length of the trajectory, i.e. the last
point's arc-length coordinate. -/
def Trajectory.length (t : Trajectory) : ℚ :=
  match t.points.getLast? with
  | some p => p.s
  | none => 0

/-- Squared planar Euclidean distance. -/
def sqDist (px py qx qy : ℚ) : ℚ := (px - qx) * (px - qx) + (py - qy) * (py - qy)

/-- Modelled from the spec: `Trajectory::closest` returns the arc length of
the trajectory point nearest to the query position (planar Euclidean
distance), ties broken by earliest arc length. -/
def Trajectory.closest (t : Trajectory) (pos : ℚ × ℚ) : ℚ :=
  match t.points with
  | [] => 0
  | p :: rest =>
    (rest.foldl
      (fun best q =>
        if sqDist q.x q.y pos.1 pos.2 < best.1 then (sqDist q.x q.y pos.1 pos.2, q.s)
        else best)
      (sqDist p.x p.y pos.1 pos.2, p.s)).2

/-- Planar cross product of the vectors `(ux, uy)` and `(vx, vy)`. -/
def cross2 (ux uy vx vy : ℚ) : ℚ := ux * vy - uy * vx

/-- Modelled from the spec: parameter `t ∈ [0, 1]` along segment `p1`–`p2` at
which it meets segment `q1`–`q2`, when the two bounded segments properly
intersect; nothing for parallel or non-intersecting segments. -/
def segIntersect (p1 p2 q1 q2 : ℚ × ℚ) : Option ℚ :=
  let rx := p2.1 - p1.1
  let ry := p2.2 - p1.2
  let sx := q2.1 - q1.1
  let sy := q2.2 - q1.2
  let den := cross2 rx ry sx sy
  if den = 0 then none
  else
    let t := cross2 (q1.1 - p1.1) (q1.2 - p1.2) sx sy / den
    let u := cross2 (q1.1 - p1.1) (q1.2 - p1.2) rx ry / den
    if 0 ≤ t ∧ t ≤ 1 ∧ 0 ≤ u ∧ u ≤ 1 then some t else none

/-- Modelled from the spec: scan the polyline's segments in increasing arc
length and return the arc length of the first intersection with the bounded
segment `q1`–`q2`. -/
def crossedFrom (q1 q2 : ℚ × ℚ) : List TrajPoint → Option ℚ
  | a :: b :: rest =>
    match segIntersect (a.x, a.y) (b.x, b.y) q1 q2 with
    | some t => some (a.s + t * (b.s - a.s))
    | none => crossedFrom q1 q2 (b :: rest)
  | _ => none

/-- Modelled from the spec: `Trajectory::crossed`, the first intersection of
the trajectory with a bounded segment, in increasing arc-length order. -/
def Trajectory.crossed (t : Trajectory) (q1 q2 : ℚ × ℚ) : Option ℚ :=
  crossedFrom q1 q2 t.points

/-- Modelled from the spec:
`longitudinal_velocity_mps.range(a, b).set(v)` sets the stored velocity to
`v` for every point whose arc length lies in `[a, b]` and touches no other
point. -/
def Trajectory.rangeSet (t : Trajectory) (a b v : ℚ) : Trajectory :=
  ⟨t.points.map fun p => if a ≤ p.s ∧ p.s ≤ b then { p with v := v } else p⟩

/-- Modelled from the spec: `Trajectory::restore` returns the point sequence
reflecting all mutations, in the original order. -/
def Trajectory.restore (t : Trajectory) : List TrajPoint := t.points

/-- Linear interpolation of the planar position at arc length `s` along a
point list sorted by arc length. -/
def interpAt : List TrajPoint → ℚ → ℚ × ℚ
  | [], _ => (0, 0)
  | [a], _ => (a.x, a.y)
  | a :: b :: rest, s =>
    if s ≤ b.s then
      if b.s = a.s then (a.x, a.y)
      else
        let t := (s - a.s) / (b.s - a.s)
        (a.x + t * (b.x - a.x), a.y + t * (b.y - a.y))
    else interpAt (b :: rest) s

/-- Modelled from the spec: `Trajectory::compute`, the interpolated pose at
arc length `s`, clamped to the trajectory's domain. -/
def Trajectory.compute (t : Trajectory) (s : ℚ) : ℚ × ℚ :=
  match t.points with
  | [] => (0, 0)
  | p :: rest => interpAt (p :: rest) (max p.s (min s (Trajectory.length t)))

/-- Module state of `StopLineModule` (scene.cpp `State`). -/
inductive State
  | APPROACH
  | STOPPED
  | START
deriving DecidableEq

/-- Parameters of the stop-line module (`StopLineModule::PlannerParam`). -/
structure PlannerParam where
  stop_margin : ℚ
  hold_stop_margin_distance : ℚ
  stop_duration_sec : ℚ
deriving DecidableEq

/-- Point in space (`geometry_msgs::msg::Point`). -/
structure Point3 where
  x : ℚ
  y : ℚ
  z : ℚ
deriving DecidableEq

/-- Per-cycle read-only planner context: ego position
(`planner_data_->current_odometry->pose`), the vehicle-stopped signal
(`planner_data_->isVehicleStopped()`), the vehicle front overhang
(`planner_data_->vehicle_info_.max_longitudinal_offset_m`) and the current
time (`clock_->now()`). -/
structure PlannerData where
  ego : ℚ × ℚ
  is_vehicle_stopped : Bool
  base_link2front : ℚ
  now : ℚ
deriving DecidableEq

/-- Persistent fields of a `StopLineModule` instance.  `extended_stop_line`
is the value of `planning_utils::extendLine(stop_line_[0], stop_line_[1],
planner_data_->stop_line_extend_length)`; `extendLine` is external code and a
pure function of immutable inputs, so it is modelled from the spec as a
precomputed constant segment. -/
structure StopLineModule where
  stop_line : Point3 × Point3
  extended_stop_line : (ℚ × ℚ) × (ℚ × ℚ)
  planner_param : PlannerParam
  state : State
  stopped_time : Option ℚ
deriving DecidableEq

/-- Translation of `getCenterOfStopLine` (scene.cpp lines 28–35). -/
def getCenterOfStopLine (stop_line : Point3 × Point3) : Point3 :=
  { x := (stop_line.1.x + stop_line.2.x) / 2
    y := (stop_line.1.y + stop_line.2.y) / 2
    z := (stop_line.1.z + stop_line.2.z) / 2 }

/-- Translation of `StopLineModule::getEgoAndStopPoint` (scene.cpp lines
84–128): the ego arc length and the optional stop arc length, branching on
the module state. -/
def getEgoAndStopPoint (m : StopLineModule) (base_link2front : ℚ)
    (trajectory : Trajectory) (ego : ℚ × ℚ) (state : State) : ℚ × Option ℚ :=
  let ego_s := trajectory.closest ego
  let stop_point_s : Option ℚ :=
    match state with
    | State.APPROACH =>
      match trajectory.crossed m.extended_stop_line.1 m.extended_stop_line.2 with
      | none => none
      | some c =>
        let s := c - (base_link2front + m.planner_param.stop_margin)
        if s < 0 then none else some s
    | State.STOPPED => some ego_s
    | State.START => none
  (ego_s, stop_point_s)

/-- Translation of `StopLineModule::updateStateAndStoppedTime` (scene.cpp
lines 130–160).  The result is `none` exactly when the C++ would dereference
an empty `stopped_time` optional (`**stopped_time` in the `STOPPED` branch),
which is undefined behavior. -/
def updateStateAndStoppedTime (p : PlannerParam) (state : State)
    (stopped_time : Option ℚ) (now : ℚ) (distance_to_stop_point : ℚ)
    (is_vehicle_stopped : Bool) : Option (State × Option ℚ) :=
  match state with
  | State.APPROACH =>
    if distance_to_stop_point < p.hold_stop_margin_distance ∧ is_vehicle_stopped = true then
      some (State.STOPPED, some now)
    else
      some (State.APPROACH, stopped_time)
  | State.STOPPED =>
    match stopped_time with
    | none => none
    | some t0 =>
      if now - t0 > p.stop_duration_sec then
        some (State.START, none)
      else
        some (State.STOPPED, some t0)
  | State.START => some (State.START, stopped_time)

/-- Status values of the velocity factor set by this module. -/
inductive VelocityFactorStatus
  | APPROACHING
  | STOPPED
deriving DecidableEq

/-- Translation of `StopLineModule::updateVelocityFactor` (scene.cpp lines
162–178): the velocity-factor value set this cycle, `none` when the `START`
branch sets nothing. -/
def updateVelocityFactor (state : State) (distance_to_stop_point : ℚ) :
    Option (ℚ × VelocityFactorStatus) :=
  match state with
  | State.APPROACH => some (distance_to_stop_point, VelocityFactorStatus.APPROACHING)
  | State.STOPPED => some (distance_to_stop_point, VelocityFactorStatus.STOPPED)
  | State.START => none

/-- Translation of `StopLineModule::updateStopReason` (scene.cpp lines
180–187): the stop factor appended to the caller's stop reason — the stop
pose together with the center of the stop line. -/
def updateStopReason (stop_line : Point3 × Point3) (stop_pose : ℚ × ℚ) :
    (ℚ × ℚ) × Point3 :=
  (stop_pose, getCenterOfStopLine stop_line)

/-- Debug record of the module (`DebugData`): front overhang and optional
stop pose. -/
structure DebugData where
  base_link2front : ℚ
  stop_pose : Option (ℚ × ℚ)
deriving DecidableEq

/-- Translation of `StopLineModule::updateDebugData` (scene.cpp lines
189–197): the stop pose is stored, then cleared again when the state is
`START`. -/
def updateDebugData (base_link2front : ℚ) (stop_pose : ℚ × ℚ) (state : State) :
    DebugData :=
  { base_link2front := base_link2front
    stop_pose := if state = State.START then none else some stop_pose }

/-- Everything one call of `modifyPathVelocity` produces: the returned flag,
the (possibly rewritten) path, the updated persistent fields, and the values
emitted this cycle (`none` means the corresponding update call was not
reached).  `ego_s` and `stop_point` record the values resolved by
`getEgoAndStopPoint`, when it was reached. -/
structure CycleResult where
  ret : Bool
  path : List TrajPoint
  state : State
  stopped_time : Option ℚ
  ego_s : Option ℚ
  stop_point : Option ℚ
  velocity_factor : Option (ℚ × VelocityFactorStatus)
  stop_reason : Option ((ℚ × ℚ) × Point3)
  debug : Option DebugData
deriving DecidableEq

/-- Translation of `StopLineModule::modifyPathVelocity` (scene.cpp lines
49–82).  The stages run in source order: build the trajectory, resolve ego
and stop point from the pre-transition state, mutate the velocity, set the
velocity factor from the pre-transition state, advance the state machine,
then emit the stop reason and the debug record (the latter from the updated
state).  The result is `none` exactly when `updateStateAndStoppedTime` would
dereference an empty optional. -/
def modifyPathVelocity (m : StopLineModule) (pd : PlannerData)
    (path : List TrajPoint) : Option CycleResult :=
  match Trajectory.build path with
  | none =>
    some { ret := true, path := path, state := m.state, stopped_time := m.stopped_time,
           ego_s := none, stop_point := none, velocity_factor := none,
           stop_reason := none, debug := none }
  | some trajectory =>
    match getEgoAndStopPoint m pd.base_link2front trajectory pd.ego m.state with
    | (ego_s, none) =>
      some { ret := true, path := path, state := m.state, stopped_time := m.stopped_time,
             ego_s := some ego_s, stop_point := none, velocity_factor := none,
             stop_reason := none, debug := none }
    | (ego_s, some stop_point) =>
      let mutated := trajectory.rangeSet stop_point trajectory.length 0
      let vf := updateVelocityFactor m.state (stop_point - ego_s)
      match updateStateAndStoppedTime m.planner_param m.state m.stopped_time pd.now
          (stop_point - ego_s) pd.is_vehicle_stopped with
      | none => none
      | some (state', stopped_time') =>
        let stop_pose := mutated.compute stop_point
        some { ret := true, path := mutated.restore, state := state',
               stopped_time := stopped_time', ego_s := some ego_s,
               stop_point := some stop_point, velocity_factor := vf,
               stop_reason := some (updateStopReason m.stop_line stop_pose),
               debug := some (updateDebugData pd.base_link2front stop_pose state') }

/-- Module fields right after construction (scene.cpp lines 37–47): state
`APPROACH`; modelled from the spec, the stopped-timestamp optional is
initially absent. -/
def initialModule (stop_line : Point3 × Point3) (extended : (ℚ × ℚ) × (ℚ × ℚ))
    (p : PlannerParam) : StopLineModule :=
  { stop_line := stop_line, extended_stop_line := extended, planner_param := p,
    state := State.APPROACH, stopped_time := none }

/-- Module states reachable by per-cycle invocations of `modifyPathVelocity`
starting from a freshly constructed module. -/
inductive Reachable : StopLineModule → Prop
  | init (sl : Point3 × Point3) (ext : (ℚ × ℚ) × (ℚ × ℚ)) (p : PlannerParam) :
      Reachable (initialModule sl ext p)
  | step {m : StopLineModule} {pd : PlannerData} {path : List TrajPoint}
      {r : CycleResult} : Reachable m → modifyPathVelocity m pd path = some r →
      Reachable { m with state := r.state, stopped_time := r.stopped_time }

/-- Transitions the state machine is allowed to take in one cycle:
`APPROACH` to itself or `STOPPED`, `STOPPED` to itself or `START`, and
`START` only to itself. -/
def stepAllowed : State → State → Bool
  | State.APPROACH, State.APPROACH => true
  | State.APPROACH, State.STOPPED => true
  | State.STOPPED, State.STOPPED => true
  | State.STOPPED, State.START => true
  | State.START, State.START => true
  | _, _ => false

/-- Concrete stop line used by the example instances below. -/
def exStopLine : Point3 × Point3 := ({ x := 4, y := -1, z := 0 }, { x := 4, y := 1, z := 0 })

/-- Concrete extended stop line: the vertical segment `x = 5`, `y ∈ [-1, 1]`. -/
def exExtended : (ℚ × ℚ) × (ℚ × ℚ) := ((5, -1), (5, 1))

/-- Concrete parameters: stop margin 2, hold-stop margin distance 1, stop
duration 2 s. -/
def exParam : PlannerParam :=
  { stop_margin := 2, hold_stop_margin_distance := 1, stop_duration_sec := 2 }

/-- Concrete input path: two points along the x axis, arc lengths 0 and 10,
velocity 5. -/
def exPath : List TrajPoint :=
  [{ s := 0, x := 0, y := 0, v := 5 }, { s := 10, x := 10, y := 0, v := 5 }]

/-- Trajectory built from `exPath`. -/
def exTraj : Trajectory := { points := exPath }

/-- Concrete module instance in the `APPROACH` state. -/
def exApproach : StopLineModule :=
  { stop_line := exStopLine, extended_stop_line := exExtended, planner_param := exParam,
    state := State.APPROACH, stopped_time := none }

/-- Concrete module instance in the `STOPPED` state, stopped at time 0. -/
def exStopped : StopLineModule :=
  { exApproach with state := State.STOPPED, stopped_time := some 0 }

/-- Concrete planner context: ego at the origin, vehicle stopped, front
overhang 1, current time 2.5 s. -/
def exPd : PlannerData :=
  { ego := (0, 0), is_vehicle_stopped := true, base_link2front := 1, now := 5 / 2 }

/-- Characterization of the undefined-behavior case of
`updateStateAndStoppedTime`: it fails exactly in state `STOPPED` with an
absent stopped time. -/
theorem update_none_iff (p : PlannerParam) (s : State) (st : Option ℚ) (now d : ℚ)
    (b : Bool) :
    updateStateAndStoppedTime p s st now d b = none ↔ s = State.STOPPED ∧ st = none := by
  cases s <;> cases st <;> simp [updateStateAndStoppedTime] <;> split <;> simp

/-- Unfolding lemma: a cycle whose trajectory fails to build passes the path
through unmodified and reaches no update call. -/
theorem mpv_build_fail (m : StopLineModule) (pd : PlannerData) (path : List TrajPoint)
    (hb : Trajectory.build path = none) :
    modifyPathVelocity m pd path =
      some { ret := true, path := path, state := m.state, stopped_time := m.stopped_time,
             ego_s := none, stop_point := none, velocity_factor := none,
             stop_reason := none, debug := none } := by
  simp only [modifyPathVelocity, hb]

/-- Unfolding lemma: a cycle that resolves no stop point passes the path
through unmodified and reaches no update call. -/
theorem mpv_no_stop (m : StopLineModule) (pd : PlannerData) (path : List TrajPoint)
    (traj : Trajectory) (es : ℚ) (hb : Trajectory.build path = some traj)
    (hg : getEgoAndStopPoint m pd.base_link2front traj pd.ego m.state = (es, none)) :
    modifyPathVelocity m pd path =
      some { ret := true, path := path, state := m.state, stopped_time := m.stopped_time,
             ego_s := some es, stop_point := none, velocity_factor := none,
             stop_reason := none, debug := none } := by
  simp only [modifyPathVelocity, hb, hg]

/-- Unfolding lemma: the full cycle when a stop point is resolved and the
state update succeeds. -/
theorem mpv_full (m : StopLineModule) (pd : PlannerData) (path : List TrajPoint)
    (traj : Trajectory) (es sp : ℚ) (s' : State) (st' : Option ℚ)
    (hb : Trajectory.build path = some traj)
    (hg : getEgoAndStopPoint m pd.base_link2front traj pd.ego m.state = (es, some sp))
    (hu : updateStateAndStoppedTime m.planner_param m.state m.stopped_time pd.now
      (sp - es) pd.is_vehicle_stopped = some (s', st')) :
    modifyPathVelocity m pd path =
      some { ret := true, path := (traj.rangeSet sp traj.length 0).restore, state := s',
             stopped_time := st', ego_s := some es, stop_point := some sp,
             velocity_factor := updateVelocityFactor m.state (sp - es),
             stop_reason := some (updateStopReason m.stop_line
               ((traj.rangeSet sp traj.length 0).compute sp)),
             debug := some (updateDebugData pd.base_link2front
               ((traj.rangeSet sp traj.length 0).compute sp) s') } := by
  simp only [modifyPathVelocity, hb, hg, hu]

/-- Unfolding lemma: the cycle hits undefined behavior exactly when the
state update does. -/
theorem mpv_ub (m : StopLineModule) (pd : PlannerData) (path : List TrajPoint)
    (traj : Trajectory) (es sp : ℚ) (hb : Trajectory.build path = some traj)
    (hg : getEgoAndStopPoint m pd.base_link2front traj pd.ego m.state = (es, some sp))
    (hu : updateStateAndStoppedTime m.planner_param m.state m.stopped_time pd.now
      (sp - es) pd.is_vehicle_stopped = none) :
    modifyPathVelocity m pd path = none := by
  simp only [modifyPathVelocity, hb, hg, hu]

/-- Every successful cycle either leaves the persistent fields unchanged or
passes them through one `updateStateAndStoppedTime` step on the distance it
resolved. -/
theorem mpv_step_or_id (m : StopLineModule) (pd : PlannerData) (path : List TrajPoint)
    (r : CycleResult) (h : modifyPathVelocity m pd path = some r) :
    (r.state = m.state ∧ r.stopped_time = m.stopped_time) ∨
    ∃ d, updateStateAndStoppedTime m.planner_param m.state m.stopped_time pd.now d
      pd.is_vehicle_stopped = some (r.state, r.stopped_time) := by
  cases hb : Trajectory.build path with
  | none =>
    rw [mpv_build_fail m pd path hb] at h
    obtain rfl := (Option.some_inj).mp h.symm
    exact Or.inl ⟨rfl, rfl⟩
  | some traj =>
    rcases hg : getEgoAndStopPoint m pd.base_link2front traj pd.ego m.state with ⟨es, osp⟩
    cases osp with
    | none =>
      rw [mpv_no_stop m pd path traj es hb hg] at h
      obtain rfl := (Option.some_inj).mp h.symm
      exact Or.inl ⟨rfl, rfl⟩
    | some sp =>
      cases hu : updateStateAndStoppedTime m.planner_param m.state m.stopped_time pd.now
          (sp - es) pd.is_vehicle_stopped with
      | none => rw [mpv_ub m pd path traj es sp hb hg hu] at h; exact absurd h (by simp)
      | some q =>
        obtain ⟨s', st'⟩ := q
        rw [mpv_full m pd path traj es sp s' st' hb hg hu] at h
        obtain rfl := (Option.some_inj).mp h.symm
        exact Or.inr ⟨sp - es, hu⟩

/-- One `updateStateAndStoppedTime` step preserves the timestamp invariant:
after the step the timestamp is present exactly in state `STOPPED`. -/
theorem update_preserves_inv (p : PlannerParam) (s : State) (st : Option ℚ) (now d : ℚ)
    (b : Bool) (s' : State) (st' : Option ℚ)
    (hinv : st.isSome = true ↔ s = State.STOPPED)
    (hu : updateStateAndStoppedTime p s st now d b = some (s', st')) :
    st'.isSome = true ↔ s' = State.STOPPED := by
  cases s with
  | APPROACH =>
    have hst : st = none := by
      cases st with
      | none => rfl
      | some t => exact absurd (hinv.mp rfl) (by simp)
    subst hst
    simp only [updateStateAndStoppedTime] at hu
    split at hu
    · obtain ⟨rfl, rfl⟩ := (Option.some_inj).mp hu |> Prod.mk.inj
      simp
    · obtain ⟨rfl, rfl⟩ := (Option.some_inj).mp hu |> Prod.mk.inj
      simp
  | STOPPED =>
    obtain ⟨t0, rfl⟩ := Option.isSome_iff_exists.mp (hinv.mpr rfl)
    simp only [updateStateAndStoppedTime] at hu
    split at hu
    · obtain ⟨rfl, rfl⟩ := (Option.some_inj).mp hu |> Prod.mk.inj
      simp
    · obtain ⟨rfl, rfl⟩ := (Option.some_inj).mp hu |> Prod.mk.inj
      simp
  | START =>
    simp only [updateStateAndStoppedTime] at hu
    obtain ⟨rfl, rfl⟩ := (Option.some_inj).mp hu |> Prod.mk.inj
    have : st.isSome = false := by
      cases st with
      | none => rfl
      | some t => exact absurd (hinv.mp rfl) (by simp)
    constructor
    · intro hs; rw [this] at hs; exact absurd hs (by simp)
    · intro hs; exact absurd hs (by simp)

/-- Reachable module states satisfy the timestamp invariant: the stopped
timestamp is present exactly in state `STOPPED`. -/
theorem inv_of_reachable (m : StopLineModule) (h : Reachable m) :
    m.stopped_time.isSome = true ↔ m.state = State.STOPPED := by
  induction h with
  | init sl ext p => simp [initialModule]
  | step hR hmpv ih =>
    rcases mpv_step_or_id _ _ _ _ hmpv with ⟨hs, ht⟩ | ⟨d, hu⟩
    · simpa [hs, ht] using ih
    · exact update_preserves_inv _ _ _ _ _ _ _ _ ih hu

/-- A cycle completes (no undefined behavior) whenever the timestamp is
present in state `STOPPED`. -/
theorem mpv_isSome_of_inv (m : StopLineModule) (pd : PlannerData) (path : List TrajPoint)
    (hinv : m.state = State.STOPPED → m.stopped_time.isSome = true) :
    (modifyPathVelocity m pd path).isSome = true := by
  cases hb : Trajectory.build path with
  | none => rw [mpv_build_fail m pd path hb]; rfl
  | some traj =>
    rcases hg : getEgoAndStopPoint m pd.base_link2front traj pd.ego m.state with ⟨es, osp⟩
    cases osp with
    | none => rw [mpv_no_stop m pd path traj es hb hg]; rfl
    | some sp =>
      cases hu : updateStateAndStoppedTime m.planner_param m.state m.stopped_time pd.now
          (sp - es) pd.is_vehicle_stopped with
      | none =>
        obtain ⟨hs, hst⟩ := (update_none_iff _ _ _ _ _ _).mp hu
        rw [hst] at hinv
        exact absurd (hinv hs) (by simp)
      | some q =>
        obtain ⟨s', st'⟩ := q
        rw [mpv_full m pd path traj es sp s' st' hb hg hu]
        rfl

/-- Along a strictly arc-length-increasing list every point's arc length is
at most the last point's. -/
theorem s_le_last (l : List TrajPoint) (h : sIncreasing l = true) :
    ∀ q ∈ l, ∀ p, l.getLast? = some p → q.s ≤ p.s := by
  induction l with
  | nil => intro q hq; exact absurd hq (by simp)
  | cons a rest ih =>
    cases rest with
    | nil =>
      intro q hq p hp
      simp at hq hp
      rw [hq, hp]
    | cons b rest2 =>
      simp only [sIncreasing, Bool.and_eq_true, decide_eq_true_eq] at h
      intro q hq p hp
      rw [List.getLast?_cons_cons] at hp
      rcases List.mem_cons.mp hq with rfl | hq2
      · have hb : b.s ≤ p.s := ih h.2 b (List.mem_cons_self b rest2) p hp
        exact le_of_lt (lt_of_lt_of_le h.1 hb)
      · exact ih h.2 q hq2 p hp

/-- Every point of a successfully built trajectory has arc length at most the
trajectory's total length. -/
theorem point_le_length (path : List TrajPoint) (traj : Trajectory)
    (hb : Trajectory.build path = some traj) :
    ∀ q ∈ traj.points, q.s ≤ traj.length := by
  have hinc : sIncreasing path = true ∧ traj = ⟨path⟩ := by
    simp only [Trajectory.build] at hb
    split at hb
    · rename_i hcond
      exact ⟨hcond.2, ((Option.some_inj).mp hb).symm⟩
    · exact absurd hb (by simp)
  obtain ⟨hinc, rfl⟩ := hinc
  intro q hq
  unfold Trajectory.length
  cases hl : (⟨path⟩ : Trajectory).points.getLast? with
  | none =>
    exact absurd (List.getLast?_eq_none_iff.mp hl ▸ hq) (by simp)
  | some p => exact s_le_last path hinc q hq p hl

/-- Setting velocity 0 on `[a, length]` zeroes every point at arc length at
least `a`, given that all points lie below the total length. -/
theorem rangeSet_zero (traj : Trajectory) (a : ℚ)
    (hle : ∀ p ∈ traj.points, p.s ≤ traj.length) :
    ∀ q ∈ (traj.rangeSet a traj.length 0).restore, a ≤ q.s → q.v = 0 := by
  intro q hq
  simp only [Trajectory.rangeSet, Trajectory.restore, List.mem_map] at hq
  obtain ⟨p, hp, rfl⟩ := hq
  intro ha
  have hseq : (if a ≤ p.s ∧ p.s ≤ traj.length then { p with v := 0 } else p).s = p.s := by
    split <;> rfl
  rw [hseq] at ha
  have hc : a ≤ p.s ∧ p.s ≤ traj.length := ⟨ha, hle p hp⟩
  simp [hc]

/-- Building the example path succeeds and yields the example trajectory. -/
theorem ex_build : Trajectory.build exPath = some exTraj := by
  norm_num [Trajectory.build, sIncreasing, exPath, exTraj]

/-- Resolving the example module in the `STOPPED` state returns ego arc
length 0 and stop arc length 0. -/
theorem ex_resolve_stopped :
    getEgoAndStopPoint exStopped exPd.base_link2front exTraj exPd.ego exStopped.state =
      (0, some 0) := by
  norm_num [getEgoAndStopPoint, Trajectory.closest, sqDist, exStopped, exApproach, exPd,
    exTraj, exPath]

/-- C2 counterexample: with `STOPPED` entered at `T0 = 0` and
`stop_duration = 2`, a cycle observed exactly at `T0 + D = 2` — the first
cycle at or after `T0 + D` — does not transition: the strict comparison
`now - stopped_time > stop_duration` is false, so the state stays `STOPPED`,
contrary to the claim. -/
theorem c2_counterexample :
    updateStateAndStoppedTime exParam State.STOPPED (some 0) 2 0 true =
      some (State.STOPPED, some 0) ∧
    (0 : ℚ) + exParam.stop_duration_sec = 2 := by
  constructor
  · simp only [updateStateAndStoppedTime]
    rw [if_neg (by norm_num [exParam])]
  · norm_num [exParam]

/-- C2 (amended): with `STOPPED` entered at time `T0` and
`stop_duration = D`, every cycle evaluated at a time in `[T0, T0 + D]` keeps
the state `STOPPED` (with the timestamp unchanged), and the state transitions
to `START` (clearing the timestamp) at the first cycle observed strictly
after `T0 + D`. -/
theorem c2_hold_release (p : PlannerParam) (t0 now d : ℚ) (b : Bool) :
    (now ≤ t0 + p.stop_duration_sec →
      updateStateAndStoppedTime p State.STOPPED (some t0) now d b =
        some (State.STOPPED, some t0)) ∧
    (t0 + p.stop_duration_sec < now →
      updateStateAndStoppedTime p State.STOPPED (some t0) now d b =
        some (State.START, none)) := by
  constructor
  · intro h
    simp only [updateStateAndStoppedTime]
    rw [if_neg (by simp only [not_lt]; linarith)]
  · intro h
    simp only [updateStateAndStoppedTime]
    rw [if_pos (by linarith)]

/-- C2 witness: at time 1 ∈ [0, 2] the state stays `STOPPED`, and at time 5/2
(strictly after 0 + 2) it transitions to `START`. -/
theorem c2_witness :
    updateStateAndStoppedTime exParam State.STOPPED (some 0) 1 0 true =
      some (State.STOPPED, some 0) ∧
    updateStateAndStoppedTime exParam State.STOPPED (some 0) (5 / 2) 0 true =
      some (State.START, none) :=
  ⟨(c2_hold_release exParam 0 1 0 true).1 (by norm_num [exParam]),
   (c2_hold_release exParam 0 (5 / 2) 0 true).2 (by norm_num [exParam])⟩

/-- C4: in state `APPROACH`, when the trajectory crosses the extended stop
line at raw arc length `c`, with front overhang `bl2f` and stop margin `M`,
the resolved stop arc length is `c - bl2f - M` whenever that value is `≥ 0`,
and absent whenever `c - bl2f - M < 0` or no intersection exists. -/
theorem c4_stop_margin (m : StopLineModule) (bl2f : ℚ) (traj : Trajectory) (ego : ℚ × ℚ) :
    (∀ c, traj.crossed m.extended_stop_line.1 m.extended_stop_line.2 = some c →
      (0 ≤ c - bl2f - m.planner_param.stop_margin →
        (getEgoAndStopPoint m bl2f traj ego State.APPROACH).2 =
          some (c - bl2f - m.planner_param.stop_margin)) ∧
      (c - bl2f - m.planner_param.stop_margin < 0 →
        (getEgoAndStopPoint m bl2f traj ego State.APPROACH).2 = none)) ∧
    (traj.crossed m.extended_stop_line.1 m.extended_stop_line.2 = none →
      (getEgoAndStopPoint m bl2f traj ego State.APPROACH).2 = none) := by
  constructor
  · intro c hc
    constructor
    · intro h0
      simp only [getEgoAndStopPoint, hc, sub_add_eq_sub_sub]
      rw [if_neg (not_lt.mpr h0)]
    · intro h0
      simp only [getEgoAndStopPoint, hc, sub_add_eq_sub_sub]
      rw [if_pos h0]
  · intro hc
    simp only [getEgoAndStopPoint, hc]

/-- C4 witness: the example trajectory crosses the extended line `x = 5` at
arc length 5; with front overhang 1 and stop margin 2 the resolved stop arc
length is 2. -/
theorem c4_witness :
    (getEgoAndStopPoint exApproach 1 exTraj (0, 0) State.APPROACH).2 = some 2 := by
  have hc : exTraj.crossed exApproach.extended_stop_line.1
      exApproach.extended_stop_line.2 = some 5 := by
    norm_num [Trajectory.crossed, crossedFrom, segIntersect, cross2, exTraj, exPath,
      exApproach, exExtended]
  have h := ((c4_stop_margin exApproach 1 exTraj (0, 0)).1 5 hc).1
    (by norm_num [exApproach, exParam])
  rw [h]
  norm_num [exApproach, exParam]

/-- C5: in state `APPROACH` the transition to `STOPPED` fires if and only if
the distance to the stop point is below `hold_stop_margin_distance` and the
vehicle-stopped signal is true; on firing the current time is recorded as the
stopped timestamp, and a negative distance does not suppress the
transition. -/
theorem c5_approach_to_stopped (p : PlannerParam) (st : Option ℚ) (now d : ℚ) (b : Bool) :
    ((d < p.hold_stop_margin_distance ∧ b = true) →
      updateStateAndStoppedTime p State.APPROACH st now d b =
        some (State.STOPPED, some now)) ∧
    (¬(d < p.hold_stop_margin_distance ∧ b = true) →
      updateStateAndStoppedTime p State.APPROACH st now d b =
        some (State.APPROACH, st)) ∧
    ((d < 0 ∧ d < p.hold_stop_margin_distance ∧ b = true) →
      updateStateAndStoppedTime p State.APPROACH st now d b =
        some (State.STOPPED, some now)) := by
  refine ⟨fun h => ?_, fun h => ?_, fun h => ?_⟩ <;> simp only [updateStateAndStoppedTime]
  · rw [if_pos h]
  · rw [if_neg h]
  · rw [if_pos ⟨h.2.1, h.2.2⟩]

/-- C5 witness: with the vehicle stopped one unit past the stop point
(distance −1, below the hold margin 1), the transition fires and records the
time 7. -/
theorem c5_witness :
    updateStateAndStoppedTime exParam State.APPROACH none 7 (-1) true =
      some (State.STOPPED, some 7) :=
  (c5_approach_to_stopped exParam none 7 (-1) true).2.2
    (by refine ⟨by norm_num, by norm_num [exParam], rfl⟩)

/-- C8: the per-cycle state update is total (whenever state `STOPPED` has its
timestamp, as every reachable state does) and restricted: from `APPROACH`
only `APPROACH` or `STOPPED`, from `STOPPED` only `STOPPED` or `START`, from
`START` only `START`, for every distance, vehicle-stopped flag and clock
input. -/
theorem c8_totality (p : PlannerParam) (s : State) (st : Option ℚ) (now d : ℚ) (b : Bool)
    (h : s = State.STOPPED → st.isSome = true) :
    (updateStateAndStoppedTime p s st now d b).isSome = true ∧
    ∀ s' st', updateStateAndStoppedTime p s st now d b = some (s', st') →
      stepAllowed s s' = true := by
  constructor
  · cases hu : updateStateAndStoppedTime p s st now d b with
    | none =>
      obtain ⟨hs, hst⟩ := (update_none_iff _ _ _ _ _ _).mp hu
      rw [hst] at h
      exact absurd (h hs) (by simp)
    | some q => rfl
  · intro s' st' hu
    cases s with
    | APPROACH =>
      simp only [updateStateAndStoppedTime] at hu
      split at hu
      · obtain ⟨rfl, rfl⟩ := (Option.some_inj).mp hu |> Prod.mk.inj
        rfl
      · obtain ⟨rfl, rfl⟩ := (Option.some_inj).mp hu |> Prod.mk.inj
        rfl
    | STOPPED =>
      cases st with
      | none => simp [updateStateAndStoppedTime] at hu
      | some t0 =>
        simp only [updateStateAndStoppedTime] at hu
        split at hu
        · obtain ⟨rfl, rfl⟩ := (Option.some_inj).mp hu |> Prod.mk.inj
          rfl
        · obtain ⟨rfl, rfl⟩ := (Option.some_inj).mp hu |> Prod.mk.inj
          rfl
    | START =>
      simp only [updateStateAndStoppedTime] at hu
      obtain ⟨rfl, rfl⟩ := (Option.some_inj).mp hu |> Prod.mk.inj
      rfl

/-- C8 witness: from `STOPPED` with a recorded timestamp the update is
defined. -/
theorem c8_witness :
    (updateStateAndStoppedTime exParam State.STOPPED (some 0) 3 0 true).isSome = true :=
  (c8_totality exParam State.STOPPED (some 0) 3 0 true (fun _ => rfl)).1

/-- C6: in state `STOPPED` (with its timestamp, as on every reachable state),
for every cycle with a valid trajectory the resolver returns a present stop
point equal to the ego arc length, the velocity is zeroed over
`[ego_s, trajectory length]`, and the distance fed to the velocity factor and
to the transition check is exactly 0. -/
theorem c6_stopped_freeze (m : StopLineModule) (pd : PlannerData) (path : List TrajPoint)
    (traj : Trajectory) (t0 : ℚ) (hs : m.state = State.STOPPED)
    (ht : m.stopped_time = some t0) (hb : Trajectory.build path = some traj) :
    getEgoAndStopPoint m pd.base_link2front traj pd.ego m.state =
      (traj.closest pd.ego, some (traj.closest pd.ego)) ∧
    (modifyPathVelocity m pd path).map (fun r => (r.velocity_factor, r.path)) =
      some (some (0, VelocityFactorStatus.STOPPED),
        (traj.rangeSet (traj.closest pd.ego) traj.length 0).restore) ∧
    (modifyPathVelocity m pd path).map (fun r => (r.state, r.stopped_time)) =
      updateStateAndStoppedTime m.planner_param State.STOPPED (some t0) pd.now 0
        pd.is_vehicle_stopped ∧
    ∀ q ∈ (traj.rangeSet (traj.closest pd.ego) traj.length 0).restore,
      traj.closest pd.ego ≤ q.s → q.v = 0 := by
  have hg : getEgoAndStopPoint m pd.base_link2front traj pd.ego m.state =
      (traj.closest pd.ego, some (traj.closest pd.ego)) := by
    rw [hs]; simp [getEgoAndStopPoint]
  cases hu : updateStateAndStoppedTime m.planner_param m.state m.stopped_time pd.now
      (traj.closest pd.ego - traj.closest pd.ego) pd.is_vehicle_stopped with
  | none =>
    obtain ⟨_, hnone⟩ := (update_none_iff _ _ _ _ _ _).mp hu
    rw [ht] at hnone
    exact absurd hnone (by simp)
  | some q =>
    obtain ⟨s', st'⟩ := q
    have hm := mpv_full m pd path traj (traj.closest pd.ego) (traj.closest pd.ego) s' st'
      hb hg hu
    refine ⟨hg, ?_, ?_, rangeSet_zero traj _ (point_le_length path traj hb)⟩
    · rw [hm, hs]
      simp [updateVelocityFactor, sub_self]
    · rw [hs, ht, sub_self] at hu
      rw [hm]
      exact hu.symm

/-- C6 witness: the example module in the `STOPPED` state resolves ego arc
length 0 and stop arc length 0. -/
theorem c6_witness :
    getEgoAndStopPoint exStopped exPd.base_link2front exTraj exPd.ego exStopped.state =
      (exTraj.closest exPd.ego, some (exTraj.closest exPd.ego)) :=
  (c6_stopped_freeze exStopped exPd exPath exTraj 0 rfl rfl ex_build).1

/-- C9: when trajectory construction fails (fewer than 2 points or
non-strictly-increasing arc length) the cycle is a no-op: the output path
equals the input path, state and stopped timestamp are unchanged, no velocity
factor, stop reason or debug update is produced, and the function still
returns `true`. -/
theorem c9_build_failure_noop (m : StopLineModule) (pd : PlannerData)
    (path : List TrajPoint) (h : path.length < 2 ∨ sIncreasing path = false) :
    modifyPathVelocity m pd path =
      some { ret := true, path := path, state := m.state, stopped_time := m.stopped_time,
             ego_s := none, stop_point := none, velocity_factor := none,
             stop_reason := none, debug := none } := by
  apply mpv_build_fail
  simp only [Trajectory.build]
  split
  · rename_i hcond
    exfalso
    rcases h with hlen | hfalse
    · exact absurd hcond.1 (not_le.mpr hlen)
    · rw [hcond.2] at hfalse
      exact absurd hfalse (by simp)
  · rfl

/-- C9 witness: the empty path fails to build and the cycle passes it through
unchanged with no emissions. -/
theorem c9_witness :
    modifyPathVelocity exStopped exPd [] =
      some { ret := true, path := [], state := State.STOPPED, stopped_time := some 0,
             ego_s := none, stop_point := none, velocity_factor := none,
             stop_reason := none, debug := none } := by
  have h := c9_build_failure_noop exStopped exPd [] (Or.inl (by norm_num))
  simpa [exStopped, exApproach] using h

/-- Case analysis of a successful `updateStateAndStoppedTime` step. -/
theorem update_cases (p : PlannerParam) (s : State) (st : Option ℚ) (now d : ℚ) (b : Bool)
    (s' : State) (st' : Option ℚ)
    (hu : updateStateAndStoppedTime p s st now d b = some (s', st')) :
    (s = State.APPROACH ∧ s' = State.STOPPED ∧ st' = some now) ∨
    (s = State.APPROACH ∧ s' = State.APPROACH ∧ st' = st) ∨
    (s = State.STOPPED ∧ s' = State.START ∧ st' = none) ∨
    (s = State.STOPPED ∧ s' = State.STOPPED ∧ st' = st) ∨
    (s = State.START ∧ s' = State.START ∧ st' = st) := by
  cases s with
  | APPROACH =>
    simp only [updateStateAndStoppedTime] at hu
    split at hu
    · obtain ⟨rfl, rfl⟩ := (Option.some_inj).mp hu |> Prod.mk.inj
      exact Or.inl ⟨rfl, rfl, rfl⟩
    · obtain ⟨rfl, rfl⟩ := (Option.some_inj).mp hu |> Prod.mk.inj
      exact Or.inr (Or.inl ⟨rfl, rfl, rfl⟩)
  | STOPPED =>
    cases st with
    | none => simp [updateStateAndStoppedTime] at hu
    | some t0 =>
      simp only [updateStateAndStoppedTime] at hu
      split at hu
      · obtain ⟨rfl, rfl⟩ := (Option.some_inj).mp hu |> Prod.mk.inj
        exact Or.inr (Or.inr (Or.inl ⟨rfl, rfl, rfl⟩))
      · obtain ⟨rfl, rfl⟩ := (Option.some_inj).mp hu |> Prod.mk.inj
        exact Or.inr (Or.inr (Or.inr (Or.inl ⟨rfl, rfl, rfl⟩)))
  | START =>
    simp only [updateStateAndStoppedTime] at hu
    obtain ⟨rfl, rfl⟩ := (Option.some_inj).mp hu |> Prod.mk.inj
    exact Or.inr (Or.inr (Or.inr (Or.inr ⟨rfl, rfl, rfl⟩)))

/-- C7: on every reachable module state the stopped timestamp is present if
and only if the state is `STOPPED`; moreover, across any successful cycle the
timestamp is set (absent before, present after) exactly at the
`APPROACH → STOPPED` transition and cleared (present before, absent after)
exactly at the `STOPPED → START` transition. -/
theorem c7_timestamp_iff_stopped (m : StopLineModule) (h : Reachable m) :
    (m.stopped_time.isSome = true ↔ m.state = State.STOPPED) ∧
    ∀ pd path r, modifyPathVelocity m pd path = some r →
      (((m.stopped_time = none ∧ r.stopped_time.isSome = true) ↔
          (m.state = State.APPROACH ∧ r.state = State.STOPPED)) ∧
       ((m.stopped_time.isSome = true ∧ r.stopped_time = none) ↔
          (m.state = State.STOPPED ∧ r.state = State.START))) := by
  have hinv := inv_of_reachable m h
  refine ⟨hinv, ?_⟩
  intro pd path r hm
  rcases mpv_step_or_id m pd path r hm with ⟨hs, hts⟩ | ⟨d, hu⟩
  · constructor
    · constructor
      · rintro ⟨h1, h2⟩
        rw [hts, h1] at h2
        exact absurd h2 (by simp)
      · rintro ⟨h1, h2⟩
        rw [hs, h1] at h2
        exact State.noConfusion h2
    · constructor
      · rintro ⟨h1, h2⟩
        rw [hts] at h2
        rw [h2] at h1
        exact absurd h1 (by simp)
      · rintro ⟨h1, h2⟩
        rw [hs, h1] at h2
        exact State.noConfusion h2
  · rcases update_cases _ _ _ _ _ _ _ _ hu with
      ⟨hm1, hr1, hr2⟩ | ⟨hm1, hr1, hr2⟩ | ⟨hm1, hr1, hr2⟩ | ⟨hm1, hr1, hr2⟩ | ⟨hm1, hr1, hr2⟩
    · have hnone : m.stopped_time = none := by
        rcases hst : m.stopped_time with _ | t
        · rfl
        · rw [hst] at hinv
          rw [hm1] at hinv
          exact State.noConfusion (hinv.mp rfl)
      constructor
      · exact iff_of_true ⟨hnone, by rw [hr2]; rfl⟩ ⟨hm1, hr1⟩
      · constructor
        · rintro ⟨h1, _⟩
          rw [hnone] at h1
          exact absurd h1 (by simp)
        · rintro ⟨h1, _⟩
          rw [hm1] at h1
          exact State.noConfusion h1
    · constructor
      · constructor
        · rintro ⟨h1, h2⟩
          rw [hr2, h1] at h2
          exact absurd h2 (by simp)
        · rintro ⟨_, h2⟩
          rw [hr1] at h2
          exact State.noConfusion h2
      · constructor
        · rintro ⟨h1, _⟩
          rw [hm1] at hinv
          exact State.noConfusion (hinv.mp h1)
        · rintro ⟨h1, _⟩
          rw [hm1] at h1
          exact State.noConfusion h1
    · have hsome : m.stopped_time.isSome = true := hinv.mpr hm1
      constructor
      · constructor
        · rintro ⟨h1, _⟩
          rw [h1] at hsome
          exact absurd hsome (by simp)
        · rintro ⟨h1, _⟩
          rw [hm1] at h1
          exact State.noConfusion h1
      · exact iff_of_true ⟨hsome, hr2⟩ ⟨hm1, hr1⟩
    · constructor
      · constructor
        · rintro ⟨h1, _⟩
          have hsome : m.stopped_time.isSome = true := hinv.mpr hm1
          rw [h1] at hsome
          exact absurd hsome (by simp)
        · rintro ⟨h1, _⟩
          rw [hm1] at h1
          exact State.noConfusion h1
      · constructor
        · rintro ⟨_, h2⟩
          rw [hr2] at h2
          have := hinv.mpr hm1
          rw [h2] at this
          exact absurd this (by simp)
        · rintro ⟨_, h2⟩
          rw [hr1] at h2
          exact State.noConfusion h2
    · have hnone : m.stopped_time = none := by
        rcases hst : m.stopped_time with _ | t
        · rfl
        · rw [hst] at hinv
          rw [hm1] at hinv
          exact State.noConfusion (hinv.mp rfl)
      constructor
      · constructor
        · rintro ⟨_, h2⟩
          rw [hr2, hnone] at h2
          exact absurd h2 (by simp)
        · rintro ⟨h1, _⟩
          rw [hm1] at h1
          exact State.noConfusion h1
      · constructor
        · rintro ⟨h1, _⟩
          rw [hnone] at h1
          exact absurd h1 (by simp)
        · rintro ⟨h1, _⟩
          rw [hm1] at h1
          exact State.noConfusion h1

/-- C7 witness: the freshly constructed module satisfies the invariant. -/
theorem c7_witness :
    ((initialModule exStopLine exExtended exParam).stopped_time.isSome = true ↔
      (initialModule exStopLine exExtended exParam).state = State.STOPPED) :=
  (c7_timestamp_iff_stopped _ (Reachable.init exStopLine exExtended exParam)).1

/-- C10: from every reachable module state the unconditional dereference of
the stopped-time optional in the `STOPPED` branch is safe — the timestamp is
present whenever the state is `STOPPED`, so no cycle hits the
undefined-behavior case. -/
theorem c10_deref_safe (m : StopLineModule) (h : Reachable m) :
    (m.state = State.STOPPED → m.stopped_time.isSome = true) ∧
    ∀ pd path, (modifyPathVelocity m pd path).isSome = true := by
  have hinv := inv_of_reachable m h
  exact ⟨fun hs => hinv.mpr hs,
    fun pd path => mpv_isSome_of_inv m pd path (fun hs => hinv.mpr hs)⟩

/-- C10 witness: a cycle from the freshly constructed module completes. -/
theorem c10_witness :
    (modifyPathVelocity (initialModule exStopLine exExtended exParam) exPd exPath).isSome =
      true :=
  (c10_deref_safe _ (Reachable.init exStopLine exExtended exParam)).2 exPd exPath

/-- C1 counterexample: in the claimed scenario (state `STOPPED`, stop
duration 2 s, 2.5 s elapsed since the timestamp) the cycle does transition to
`START`, but on that same cycle the resolved stop arc length is present
(`some 0`, the ego arc length), and the output path's velocity beyond that
point is zeroed (the point at arc length 10 has velocity 0, not its original
5) — contradicting the claim that on that cycle the stop arc length is
absent and the path keeps its original velocities. -/
theorem c1_counterexample :
    exStopped.state = State.STOPPED ∧ exStopped.stopped_time = some 0 ∧
    exPd.now - 0 = 5 / 2 ∧ exStopped.planner_param.stop_duration_sec = 2 ∧
    (modifyPathVelocity exStopped exPd exPath).map
        (fun r => (r.state, r.stop_point, r.path, r.debug.map DebugData.stop_pose)) =
      some (State.START, some 0,
        [{ s := 0, x := 0, y := 0, v := 0 }, { s := 10, x := 10, y := 0, v := 0 }],
        some none) ∧
    ({ s := 10, x := 10, y := 0, v := 0 } : TrajPoint) ≠
      { s := 10, x := 10, y := 0, v := 5 } := by
  refine ⟨rfl, rfl, by norm_num [exPd], rfl, ?_, by simp⟩
  have hu : updateStateAndStoppedTime exStopped.planner_param exStopped.state
      exStopped.stopped_time exPd.now ((0 : ℚ) - 0) exPd.is_vehicle_stopped =
      some (State.START, none) := by
    norm_num [updateStateAndStoppedTime, exStopped, exApproach, exParam, exPd]
  rw [mpv_full exStopped exPd exPath exTraj 0 0 State.START none ex_build
    ex_resolve_stopped hu]
  norm_num [Trajectory.rangeSet, Trajectory.restore, Trajectory.length, exTraj, exPath,
    updateDebugData]

/-- C1 (amended): if the state is `STOPPED` with `stop_duration = D` and more
than `D` has elapsed since the stopped timestamp, then on that same cycle the
module transitions to `START` (clearing the timestamp) and the emitted debug
stop pose is absent, while that cycle's resolved stop arc length is still
present (the ego arc length) and that cycle's output path is zeroed from it;
from the next cycle on, the resolved stop arc length is absent, the output
path keeps its original velocities, and no velocity factor, stop reason or
debug update is produced. -/
theorem c1_release (m : StopLineModule) (pd : PlannerData) (path : List TrajPoint)
    (traj : Trajectory) (t0 : ℚ) (hs : m.state = State.STOPPED)
    (ht : m.stopped_time = some t0)
    (hd : pd.now - t0 > m.planner_param.stop_duration_sec)
    (hb : Trajectory.build path = some traj) :
    (modifyPathVelocity m pd path).map
        (fun r => (r.state, r.stopped_time, r.stop_point, r.path,
          r.debug.map DebugData.stop_pose)) =
      some (State.START, none, some (traj.closest pd.ego),
        (traj.rangeSet (traj.closest pd.ego) traj.length 0).restore, some none) ∧
    ∀ pd' path',
      (modifyPathVelocity { m with state := State.START, stopped_time := none }
          pd' path').map
          (fun r => (r.stop_point, r.path, r.velocity_factor, r.stop_reason, r.debug)) =
        some (none, path', none, none, none) := by
  have hg : getEgoAndStopPoint m pd.base_link2front traj pd.ego m.state =
      (traj.closest pd.ego, some (traj.closest pd.ego)) := by
    rw [hs]; simp [getEgoAndStopPoint]
  have hu : updateStateAndStoppedTime m.planner_param m.state m.stopped_time pd.now
      (traj.closest pd.ego - traj.closest pd.ego) pd.is_vehicle_stopped =
      some (State.START, none) := by
    rw [hs, ht]
    simp only [updateStateAndStoppedTime]
    rw [if_pos hd]
  constructor
  · rw [mpv_full m pd path traj _ _ _ _ hb hg hu]
    simp [updateDebugData]
  · intro pd' path'
    cases hb' : Trajectory.build path' with
    | none =>
      rw [mpv_build_fail _ _ _ hb']
      simp
    | some traj' =>
      have hg' : getEgoAndStopPoint { m with state := State.START, stopped_time := none }
          pd'.base_link2front traj' pd'.ego
          ({ m with state := State.START, stopped_time := none } : StopLineModule).state =
          (traj'.closest pd'.ego, none) := by
        simp [getEgoAndStopPoint]
      rw [mpv_no_stop _ _ _ traj' _ hb' hg']
      simp

/-- C1 witness: the amended release behavior at the concrete scenario (stop
duration 2 s, 2.5 s elapsed), including the follow-up cycle in `START`. -/
theorem c1_witness :
    (modifyPathVelocity exStopped exPd exPath).map
        (fun r => (r.state, r.stopped_time, r.stop_point, r.path,
          r.debug.map DebugData.stop_pose)) =
      some (State.START, none, some (exTraj.closest exPd.ego),
        (exTraj.rangeSet (exTraj.closest exPd.ego) exTraj.length 0).restore, some none) ∧
    (modifyPathVelocity { exStopped with state := State.START, stopped_time := none }
        exPd exPath).map
        (fun r => (r.stop_point, r.path, r.velocity_factor, r.stop_reason, r.debug)) =
      some (none, exPath, none, none, none) :=
  ⟨(c1_release exStopped exPd exPath exTraj 0 rfl rfl
      (by norm_num [exPd, exStopped, exApproach, exParam]) ex_build).1,
   (c1_release exStopped exPd exPath exTraj 0 rfl rfl
      (by norm_num [exPd, exStopped, exApproach, exParam]) ex_build).2 exPd exPath⟩

/-- C3 counterexample: on a cycle where the `STOPPED → START` transition
fires, the emitted debug record already reflects the post-transition state —
its stop pose is absent — although the pre-transition state is `STOPPED`, for
which the debug update would have kept the pose.  A transition firing
mid-cycle therefore does affect the emitted status of that same cycle,
contradicting the claim. -/
theorem c3_counterexample :
    exStopped.state = State.STOPPED ∧
    (modifyPathVelocity exStopped exPd exPath).map (fun r => (r.state, r.debug)) =
      some (State.START, some { base_link2front := 1, stop_pose := none }) ∧
    (updateDebugData 1 ((exTraj.rangeSet 0 exTraj.length 0).compute 0)
        exStopped.state).stop_pose =
      some ((exTraj.rangeSet 0 exTraj.length 0).compute 0) := by
  refine ⟨rfl, ?_, ?_⟩
  · have hu : updateStateAndStoppedTime exStopped.planner_param exStopped.state
        exStopped.stopped_time exPd.now ((0 : ℚ) - 0) exPd.is_vehicle_stopped =
        some (State.START, none) := by
      norm_num [updateStateAndStoppedTime, exStopped, exApproach, exParam, exPd]
    rw [mpv_full exStopped exPd exPath exTraj 0 0 State.START none ex_build
      ex_resolve_stopped hu]
    simp [updateDebugData, exPd]
  · simp [updateDebugData, exStopped, exApproach]

/-- C3 (amended): the stop point used to mutate the velocity and to emit the
velocity factor and the stop reason is resolved from the module state before
this cycle's transition evaluation, and the transition consumes exactly the
distance computed from that pre-transition resolution; the debug record,
however, is derived from the post-transition state, so a transition firing
mid-cycle affects the same cycle's debug stop pose (and nothing else). -/
theorem c3_ordering (m : StopLineModule) (pd : PlannerData) (path : List TrajPoint)
    (traj : Trajectory) (es sp : ℚ) (hb : Trajectory.build path = some traj)
    (hg : getEgoAndStopPoint m pd.base_link2front traj pd.ego m.state = (es, some sp)) :
    (modifyPathVelocity m pd path).map (fun r => (r.state, r.stopped_time)) =
      updateStateAndStoppedTime m.planner_param m.state m.stopped_time pd.now (sp - es)
        pd.is_vehicle_stopped ∧
    (modifyPathVelocity m pd path).map
        (fun r => (r.path, r.velocity_factor, r.stop_reason)) =
      (updateStateAndStoppedTime m.planner_param m.state m.stopped_time pd.now (sp - es)
        pd.is_vehicle_stopped).map
        (fun _ => ((traj.rangeSet sp traj.length 0).restore,
          updateVelocityFactor m.state (sp - es),
          some (updateStopReason m.stop_line
            ((traj.rangeSet sp traj.length 0).compute sp)))) ∧
    (modifyPathVelocity m pd path).map (fun r => r.debug) =
      (updateStateAndStoppedTime m.planner_param m.state m.stopped_time pd.now (sp - es)
        pd.is_vehicle_stopped).map
        (fun q => some (updateDebugData pd.base_link2front
          ((traj.rangeSet sp traj.length 0).compute sp) q.1)) := by
  cases hu : updateStateAndStoppedTime m.planner_param m.state m.stopped_time pd.now
      (sp - es) pd.is_vehicle_stopped with
  | none =>
    rw [mpv_ub m pd path traj es sp hb hg hu]
    simp
  | some q =>
    obtain ⟨s', st'⟩ := q
    rw [mpv_full m pd path traj es sp s' st' hb hg hu]
    simp

/-- C3 witness: the ordering characterization at the concrete `STOPPED`
scenario. -/
theorem c3_witness :
    (modifyPathVelocity exStopped exPd exPath).map (fun r => (r.state, r.stopped_time)) =
      updateStateAndStoppedTime exStopped.planner_param exStopped.state
        exStopped.stopped_time exPd.now ((0 : ℚ) - 0) exPd.is_vehicle_stopped :=
  (c3_ordering exStopped exPd exPath exTraj 0 0 ex_build ex_resolve_stopped).1

end BehaviorVelocityPlanner
